import Mathlib

/-!
Verification of the A3C training loop of `algorithms/a3c/train.py`
(TheMTank/ai2thor-experiments).

The training worker is embedded as a pure state machine:
  * rewards, critic values, log-probabilities and entropies are rationals
    (stand-ins for the float tensors of the source);
  * the environment and the neural network are abstracted as an input
    stream (`StepInput`), indexed by the number of environment interactions
    performed so far (`total_length`), since each interaction consumes
    exactly one observation/transition;
  * the shared model's parameters and the optimizer's internal state are
    abstract types `mu` and `omega`; the numeric effect of `optimizer.step()`
    and of `backward()` is abstracted behind oracles in the configuration;
  * Python's `ZeroDivisionError` (the only failure the modelled code can
    raise) is modelled by `Option`, `none` meaning the exception propagated;
  * Python's `float('-inf')` initialisation of the rolling-average variables
    is modelled by `Option ℚ` with `none` standing for `-inf`, compared by
    `floatGt` which mirrors IEEE comparisons against `-inf`.
-/

/-- Model of the comparison `a > b` on Python floats where `none` stands for
`float('-inf')`: `-inf > x` is false, `x > -inf` is true for finite `x`,
and finite values compare as rationals. -/
def floatGt (a b : Option ℚ) : Bool :=
  match a, b with
  | none, _ => false
  | some _, none => true
  | some x, some y => decide (y < x)

/-! ## The GAE loss loop (train.py lines 209-223) -/

/-- Accumulator of the backward loss loop: the running return `R`, the
running GAE term `gae`, and the two accumulated losses. -/
structure GAEState where
  R : ℚ
  gae : ℚ
  policyLoss : ℚ
  valueLoss : ℚ
deriving DecidableEq

/-- One iteration of the backward loop body (train.py lines 214-223) at
index `i`, reading the rollout buffers exactly as the source indexes them
(`rewards[i]`, `values[i]`, `values[i + 1]`, `log_probs[i]`,
`entropies[i]`; out-of-range reads default to 0, which never happens for
the in-bounds indices the loop uses). -/
def gaeIter (gamma tau entropyCoef : ℚ) (rewards values logProbs entropies : List ℚ)
    (s : GAEState) (i : ℕ) : GAEState :=
  let R := gamma * s.R + rewards.getD i 0
  let advantage := R - values.getD i 0
  let valueLoss := s.valueLoss + 1/2 * advantage ^ 2
  let delta_t := rewards.getD i 0 + gamma * values.getD (i + 1) 0 - values.getD i 0
  let gae := s.gae * gamma * tau + delta_t
  let policyLoss := s.policyLoss - logProbs.getD i 0 * gae - entropyCoef * entropies.getD i 0
  ⟨R, gae, policyLoss, valueLoss⟩

/-- The whole loss computation of train.py lines 210-223:
`for i in reversed(range(len(rewards)))` over `gaeIter`, with
`policy_loss = 0`, `value_loss = 0`, `gae = 0` and `R` seeded with the
bootstrap value appended to `values` at line 209. -/
def gaeLoop (gamma tau entropyCoef : ℚ) (rewards values logProbs entropies : List ℚ)
    (R0 : ℚ) : GAEState :=
  (List.range rewards.length).reverse.foldl
    (gaeIter gamma tau entropyCoef rewards values logProbs entropies) ⟨R0, 0, 0, 0⟩

/-- GAE recursion as the specification states it, written as a structural
recursion on the trajectory: for a trajectory of length T with values
`V_0 .. V_{T-1}` followed by the terminal bootstrap value, accumulate
backward `R = γR + r_t`, `advantage = R - V_t`,
`δ_t = r_t + γ V_{t+1} - V_t`, `gae = γτ·gae + δ_t`, policy loss
`-= log π(a_t)·gae + β_entropy·H_t`, value loss `+= 0.5·advantage²`.
The base state seeds `R` with the terminal bootstrap value, i.e. the sole
remaining entry of the value list. -/
def gaeSpec (gamma tau entropyCoef : ℚ) :
    List ℚ → List ℚ → List ℚ → List ℚ → GAEState
  | r :: rs, v :: vs, lp :: lps, h :: hs =>
    let s := gaeSpec gamma tau entropyCoef rs vs lps hs
    let R := gamma * s.R + r
    let advantage := R - v
    let delta_t := r + gamma * vs.getD 0 0 - v
    let gae := s.gae * gamma * tau + delta_t
    ⟨R, gae, s.policyLoss - lp * gae - entropyCoef * h,
      s.valueLoss + 1/2 * advantage ^ 2⟩
  | _, vs, _, _ => ⟨vs.getD 0 0, 0, 0, 0⟩

/-! ## Shared gradients and the shared optimizer step
(train.py lines 41-46 and 225-231) -/

/-- `ensure_shared_grads` (train.py lines 41-46): walk the zipped parameter
lists; as soon as a shared parameter already has a gradient, return without
writing anything further; otherwise assign the local parameter's gradient
(itself possibly `None`) to the shared parameter. -/
def ensure_shared_grads {α : Type} : List (Option α) → List (Option α) → List (Option α)
  | _, [] => []
  | [], sg => sg
  | g :: gs, s :: ss =>
    match s with
    | some v => some v :: ss
    | none => g :: ensure_shared_grads gs ss

/-- `optimizer.zero_grad()` (train.py line 225) on the shared parameters:
gradients that exist are zeroed in place, absent gradients stay absent. -/
def zeroGrad (gs : List (Option ℚ)) : List (Option ℚ) :=
  gs.map (Option.map (fun _ => 0))

/-- Lines 225-231 of train.py as they act on the shared gradient buffers and
the count of optimizer steps taken: `optimizer.zero_grad()`, backward and
gradient clipping (whose numeric output is the `localGrads` argument,
supplied by an oracle), `ensure_shared_grads`, then one `optimizer.step()`. -/
def sharedUpdate (localGrads sharedGrads : List (Option ℚ)) (steps : ℕ) :
    List (Option ℚ) × ℕ :=
  (ensure_shared_grads localGrads (zeroGrad sharedGrads), steps + 1)

/-! ## Checkpointing (train.py lines 34-39 and 113-128) -/

/-- The checkpoint cadence test of train.py lines 115-116:
`rank == 0 and total_length > 0 and
 total_length % (checkpoint_freq // num_processes) == 0`,
with Python's left-to-right short-circuit evaluation; `none` models the
`ZeroDivisionError` raised when the modulus is evaluated with
`checkpoint_freq // num_processes == 0`. -/
def checkpointCond (rank totalLength checkpointFreq numProcesses : ℕ) : Option Bool :=
  if rank = 0 then
    if 0 < totalLength then
      let d := checkpointFreq / numProcesses
      if d = 0 then none else some (decide (totalLength % d = 0))
    else some false
  else some false

/-! ## The worker state machine (train.py lines 48-231) -/

/-- The oracle data one environment interaction step consumes: the critic
value, chosen action's log-probability and policy entropy produced by the
model's forward pass (lines 130-143), and the reward and done flag returned
by `env.step` (line 146). -/
structure StepInput where
  value : ℚ
  logProb : ℚ
  entropy : ℚ
  reward : ℚ
  doneEnv : Bool
deriving DecidableEq

/-- The checkpoint dictionary written by `save_checkpoint` (train.py lines
118-124): exactly the keys `total_length`, `episode_number`, `counter`,
`state_dict` (the local model's state) and `optimizer` (the optimizer's
state). `mu` and `omega` are the abstract types of model and optimizer
state. -/
structure CheckpointRecord (mu omega : Type) where
  totalLength : ℕ
  episodeNumber : ℕ
  counter : ℕ
  stateDict : mu
  optimizerState : omega
deriving DecidableEq

/-- One checkpoint write event (train.py line 128): the record saved, the
`best_so_far` flag deciding whether `model_best.pth.tar` is also written,
and - as instrumentation for stating properties about the write - the
rolling average `avg_episode_return` read at the moment of the write. -/
structure CheckpointEvent (mu omega : Type) where
  record : CheckpointRecord mu omega
  isBest : Bool
  avgAtWrite : Option ℚ
deriving DecidableEq

/-- Static configuration of one worker: the command-line arguments the
modelled lines read, the worker's rank, and oracles abstracting the
numeric parts that are out of scope (`optStep` for the effect of
`optimizer.step()` on shared model and optimizer state, `gradOracle` for
the local gradients produced by `backward()` plus clipping before the
`num_backprops`-th update). -/
structure Config (mu omega : Type) where
  rank : ℕ
  numProcesses : ℕ
  numSteps : ℕ
  maxEpisodeLength : ℕ
  checkpointFreq : ℕ
  numParams : ℕ
  totalLength0 : ℕ
  episodeNumber0 : ℕ
  gamma : ℚ
  tau : ℚ
  entropyCoef : ℚ
  optStep : mu → omega → mu × omega
  gradOracle : ℕ → List (Option ℚ)

/-- The mutable state of one worker, as of the variables of `train`
(lines 84-96 and the loop locals), plus the shared objects it touches
(counter, shared model state, shared gradients, optimizer state) and the
observable history of checkpoint writes. `avgEpisodeReturn` and
`bestAvgEpisodeReturn` are `Option ℚ` with `none` for their `-np.inf`
initialisation. -/
structure TrainState (mu omega : Type) where
  totalLength : ℕ
  episodeLength : ℕ
  episodeNumber : ℕ
  counter : ℕ
  allRewardsInEpisode : List ℚ
  episodeTotalRewardsList : List ℚ
  avgEpisodeReturns : List ℚ
  avgEpisodeReturn : Option ℚ
  bestAvgEpisodeReturn : Option ℚ
  values : List ℚ
  logProbs : List ℚ
  rewards : List ℚ
  entropies : List ℚ
  done : Bool
  checkpoints : List (CheckpointEvent mu omega)
  modelState : mu
  sharedState : mu
  optState : omega
  sharedGrads : List (Option ℚ)
  optSteps : ℕ
  numBackprops : ℕ
  lastBootstrap : ℚ
  policyLossLog : ℚ
  valueLossLog : ℚ
deriving DecidableEq

/-- The checkpoint record built at train.py lines 118-124 from the current
state. -/
def ckptRecordOf {mu omega : Type} (s : TrainState mu omega) : CheckpointRecord mu omega :=
  { totalLength := s.totalLength
    episodeNumber := s.episodeNumber
    counter := s.counter
    stateDict := s.modelState
    optimizerState := s.optState }

/-- The checkpoint write event of train.py lines 125-128: `best_so_far` is
true iff `avg_episode_return > best_avg_episode_return` (a Python float
comparison whose operands start at `-inf`). -/
def ckptEventOf {mu omega : Type} (s : TrainState mu omega) : CheckpointEvent mu omega :=
  { record := ckptRecordOf s
    isBest := floatGt s.avgEpisodeReturn s.bestAvgEpisodeReturn
    avgAtWrite := s.avgEpisodeReturn }

/-- Train.py lines 113-128, the checkpoint block at the top of each rollout
step: evaluate the cadence condition (possibly raising, modelled by
`none`), and if it holds append a checkpoint write event. -/
def checkpointBlock {mu omega : Type} (cfg : Config mu omega) (s : TrainState mu omega) :
    Option (TrainState mu omega) :=
  match checkpointCond cfg.rank s.totalLength cfg.checkpointFreq cfg.numProcesses with
  | none => none
  | some b =>
    some (if b then { s with checkpoints := s.checkpoints ++ [ckptEventOf s] } else s)

/-- Train.py lines 156-184, the block run when a step ends the episode:
`total_reward_for_episode = sum(all_rewards_in_episode)` is recorded,
the rolling average over the last 10 recorded episode totals is updated
only once more than 10 totals have been recorded
(`avg_over_num_episodes = 10`, line 85; Python's `l[-10:]` is
`drop (length - 10)`), the per-episode accumulator is emptied, the episode
counter advances and the episode length resets. -/
def doneBlock {mu omega : Type} (s : TrainState mu omega) : TrainState mu omega :=
  let totalReward := s.allRewardsInEpisode.sum
  let etrl := s.episodeTotalRewardsList ++ [totalReward]
  let lastTen := etrl.drop (etrl.length - 10)
  { s with
    episodeTotalRewardsList := etrl
    avgEpisodeReturn :=
      if 10 < etrl.length then some (lastTen.sum / (lastTen.length : ℚ))
      else s.avgEpisodeReturn
    avgEpisodeReturns :=
      if 10 < etrl.length then s.avgEpisodeReturns ++ [lastTen.sum / (lastTen.length : ℚ)]
      else s.avgEpisodeReturns
    allRewardsInEpisode := ([] : List ℚ)
    episodeNumber := s.episodeNumber + 1
    episodeLength := 0 }

/-- Train.py lines 130-192 after the checkpoint block: the forward pass
appends the entropy (line 140), `env.step` advances the episode and total
step counts (lines 146-150), the done flag also triggers at the episode
length cap (line 151), the shared counter is incremented (lines 153-154),
the episode-end block runs if done (lines 156-184), and the value,
log-probability, reward and per-episode reward are appended
(lines 186-189). -/
def stepBody {mu omega : Type} (cfg : Config mu omega) (inp : StepInput)
    (s1 : TrainState mu omega) : TrainState mu omega :=
  let s2 := { s1 with entropies := s1.entropies ++ [inp.entropy] }
  let epLen := s2.episodeLength + 1
  let done := inp.doneEnv || decide (cfg.maxEpisodeLength ≤ epLen)
  let s3 := { s2 with
    episodeLength := epLen
    totalLength := s2.totalLength + 1
    counter := s2.counter + 1 }
  let s4 := if done then doneBlock s3 else s3
  { s4 with
    values := s4.values ++ [inp.value]
    logProbs := s4.logProbs ++ [inp.logProb]
    rewards := s4.rewards ++ [inp.reward]
    allRewardsInEpisode := s4.allRewardsInEpisode ++ [inp.reward]
    done := done }

/-- One full iteration of the rollout loop body (train.py lines 113-189):
the checkpoint block, then the interaction step, consuming the input that
the environment/model oracle holds at index `total_length`. -/
def innerStep {mu omega : Type} (cfg : Config mu omega) (inp : StepInput)
    (s : TrainState mu omega) : Option (TrainState mu omega) :=
  (checkpointBlock cfg s).map (stepBody cfg inp)

/-- The rollout loop `for step in range(args.num_steps)` with its
`if done: break` (train.py lines 113, 191-192), run with the given fuel. -/
def rolloutGo {mu omega : Type} (cfg : Config mu omega) (script : ℕ → StepInput) :
    ℕ → TrainState mu omega → Option (TrainState mu omega)
  | 0, s => some s
  | n + 1, s =>
    match innerStep cfg (script s.totalLength) s with
    | none => none
    | some t => if t.done then some t else rolloutGo cfg script n t

/-- Lines 98-110: sync the local model with the shared model
(`model.load_state_dict(shared_model.state_dict())`) and start the rollout
with fresh `values`, `log_probs`, `rewards`, `entropies` buffers. -/
def syncAndReset {mu omega : Type} (s : TrainState mu omega) : TrainState mu omega :=
  { s with
    modelState := s.sharedState
    values := ([] : List ℚ)
    logProbs := ([] : List ℚ)
    rewards := ([] : List ℚ)
    entropies := ([] : List ℚ) }

/-- Train.py lines 196-236 after the rollout: the terminal bootstrap
`R = value.detach()` from a forward pass on the state after the last
collected step if the rollout did not end the episode, else `R = 0.0`
(lines 196-206); `values.append(R)` (line 209); the GAE loss loop
(lines 210-223); zero_grad, backward, `ensure_shared_grads` and one
`optimizer.step()` (lines 225-231); `num_backprops += 1` and the loss
logging (lines 234-236). -/
def outerTail {mu omega : Type} (cfg : Config mu omega) (script : ℕ → StepInput)
    (r : TrainState mu omega) : TrainState mu omega :=
  let R : ℚ := if !r.done then (script r.totalLength).value else 0
  let values := r.values ++ [R]
  let g := gaeLoop cfg.gamma cfg.tau cfg.entropyCoef r.rewards values r.logProbs r.entropies R
  let upd := sharedUpdate (cfg.gradOracle r.numBackprops) r.sharedGrads r.optSteps
  let so := cfg.optStep r.sharedState r.optState
  { r with
    values := values
    lastBootstrap := R
    policyLossLog := g.policyLoss
    valueLossLog := g.valueLoss
    sharedGrads := upd.1
    optSteps := upd.2
    sharedState := so.1
    optState := so.2
    numBackprops := r.numBackprops + 1 }

/-- One iteration of the outer `while True` training loop
(train.py lines 97-236). -/
def outerIter {mu omega : Type} (cfg : Config mu omega) (script : ℕ → StepInput)
    (s : TrainState mu omega) : Option (TrainState mu omega) :=
  (rolloutGo cfg script cfg.numSteps (syncAndReset s)).map (outerTail cfg script)

/-- `n` iterations of the outer training loop. -/
def outerLoop {mu omega : Type} (cfg : Config mu omega) (script : ℕ → StepInput) :
    ℕ → TrainState mu omega → Option (TrainState mu omega)
  | 0, s => some s
  | n + 1, s =>
    match outerIter cfg script s with
    | none => none
    | some t => outerLoop cfg script n t

/-- The worker's state on entering the training loop (train.py lines
82-96): zeroed monitoring state, `avg_episode_return` and
`best_avg_episode_return` at `-np.inf`, `done = True`, counters taken from
the configuration/shared objects, and a shared model whose parameters have
no gradients yet. -/
def initState {mu omega : Type} (cfg : Config mu omega) (m0 sh0 : mu) (o0 : omega)
    (c0 : ℕ) : TrainState mu omega :=
  { totalLength := cfg.totalLength0
    episodeLength := 0
    episodeNumber := cfg.episodeNumber0
    counter := c0
    allRewardsInEpisode := []
    episodeTotalRewardsList := []
    avgEpisodeReturns := []
    avgEpisodeReturn := none
    bestAvgEpisodeReturn := none
    values := []
    logProbs := []
    rewards := []
    entropies := []
    done := true
    checkpoints := []
    modelState := m0
    sharedState := sh0
    optState := o0
    sharedGrads := List.replicate cfg.numParams none
    optSteps := 0
    numBackprops := 0
    lastBootstrap := 0
    policyLossLog := 0
    valueLossLog := 0 }

/-- The best rolling average seen so far, as the specification's words
describe it: the maximum of all rolling averages recorded so far, starting
from `-inf` (`none`). -/
def bestSoFarSpec (avgs : List ℚ) : Option ℚ :=
  avgs.foldl (fun b a => match b with | none => some a | some m => some (max m a)) none

/-! ## Concrete instances used to exhibit runs of the model -/

/-- A worker configuration with `rank = 1` (so the checkpoint cadence test is
skipped), rollouts of two steps, and an episode cap that is not hit. -/
def cfgW : Config ℕ ℕ :=
  { rank := 1, numProcesses := 1, numSteps := 2, maxEpisodeLength := 5,
    checkpointFreq := 10, numParams := 2, totalLength0 := 0, episodeNumber0 := 0,
    gamma := 1/2, tau := 1/3, entropyCoef := 1/100,
    optStep := fun m o => (m + 1, o), gradOracle := fun _ => [some 1, some 2] }

/-- A bland input stream: constant rewards, the episode never ends on the
environment's account. -/
def scriptW : ℕ → StepInput := fun n =>
  { value := (n : ℚ) + 1, logProb := 1/2, entropy := 1/4, reward := 2, doneEnv := false }

/-- Start state for the bland runs, with a shared counter already at 5. -/
def stW : TrainState ℕ ℕ := initState cfgW 0 0 0 5

/-- Like `cfgW` but with an episode length cap of 1, so every step ends the
episode. -/
def cfgD : Config ℕ ℕ :=
  { cfgW with maxEpisodeLength := 1 }

/-- A rank-0 configuration with `checkpoint_freq < num_processes`
(`1 < 2`), whose integer-division cadence divisor is 0. -/
def cfg9 : Config ℕ ℕ :=
  { cfgW with rank := 0, checkpointFreq := 1, numProcesses := 2, totalLength0 := 1 }

/-- Start state for the `cfg9` runs (`total_length` already positive). -/
def st9 : TrainState ℕ ℕ := initState cfg9 0 0 0 0

/-- Rank-0 configuration for the rolling-average/best-checkpoint run: one
process, checkpoint cadence divisor 12, every step ends its episode. -/
def cfg6 : Config ℕ ℕ :=
  { rank := 0, numProcesses := 1, numSteps := 20, maxEpisodeLength := 1,
    checkpointFreq := 12, numParams := 1, totalLength0 := 0, episodeNumber0 := 0,
    gamma := 0, tau := 0, entropyCoef := 0,
    optStep := fun m o => (m, o), gradOracle := fun _ => [some 1] }

/-- Rewards 5 for the first ten interactions, -45 for the eleventh, then 0:
the rolling average over the last 10 recorded episode totals first becomes
5, then drops to 0 before the first checkpoint write. -/
def script6 : ℕ → StepInput := fun n =>
  { value := 0, logProb := 0, entropy := 0,
    reward := if n < 10 then 5 else if n = 10 then -45 else 0,
    doneEnv := false }

/-- Start state for the `cfg6` run. -/
def st6 : TrainState ℕ ℕ := initState cfg6 0 0 0 0

/-- Result state of one outer iteration of the bland run (the rollout runs
both steps, the episode does not end). -/
def resW : TrainState ℕ ℕ := (outerIter cfgW scriptW stW).getD stW

/-- Result state of one rollout step of the episode-ending run. -/
def resD : TrainState ℕ ℕ := (innerStep cfgD (scriptW 0) stW).getD stW

/-- Result state of the first thirteen outer iterations of the `cfg6` run:
its single checkpoint write happens at the top of the thirteenth
iteration, when `total_length = 12`. -/
def res6 : TrainState ℕ ℕ := (outerLoop cfg6 script6 13 st6).getD st6


/-- Result of one rollout step of the bland run (shared counter 5 becomes 6). -/
def stW1 : TrainState ℕ ℕ := (innerStep cfgW (scriptW 0) stW).getD stW

/-- The `cfg6` run stopped just before its checkpoint write: the state after
twelve outer iterations, i.e. the state read by the write at the top of
iteration thirteen. -/
def st12 : TrainState ℕ ℕ := (outerLoop cfg6 script6 12 st6).getD st6

/-- The state right after the checkpoint block fires on `st12`
(`total_length = 12` is divisible by `12 = 12 // 1`). -/
def ck5 : TrainState ℕ ℕ := (checkpointBlock cfg6 st12).getD st12

/-! ## Theorems -/

/-- Shifting the loop index by one against a cons of every rollout buffer
leaves the loop body unchanged. -/
theorem gaeIter_shift (g t ec : ℚ) (r v lp e : ℚ) (rs vs lps ens : List ℚ)
    (s : GAEState) (i : ℕ) :
    gaeIter g t ec (r :: rs) (v :: vs) (lp :: lps) (e :: ens) s (i + 1) =
      gaeIter g t ec rs vs lps ens s i := by
  simp [gaeIter, List.getD_cons_succ]

/-- C1: for every rollout of rewards, value estimates and bootstrap value
appended as R, the loss computation of train.py lines 209-223 - iterating
i from T-1 down to 0 with R = gamma*R + r_i, advantage = R - V_i,
value_loss += 0.5*advantage^2, delta_i = r_i + gamma*V_(i+1) - V_i,
gae = gae*gamma*tau + delta_i with gae initialised to 0, and
policy_loss += -log_prob_i * gae - entropy_coef * entropy_i, with both
losses initialised to 0 - computes exactly the specification's GAE
recursion (gaeSpec). -/
theorem c1_gae_loop_refines_spec (g t ec R0 : ℚ) :
    ∀ (rs vs lps ens : List ℚ),
      vs.length = rs.length → lps.length = rs.length → ens.length = rs.length →
      gaeLoop g t ec rs (vs ++ [R0]) lps ens R0 = gaeSpec g t ec rs (vs ++ [R0]) lps ens := by
  intro rs
  induction rs with
  | nil =>
    intro vs lps ens hv hl he
    rw [List.length_nil, List.length_eq_zero] at hv hl he
    subst hv; subst hl; subst he
    rfl
  | cons r rs ih =>
    intro vs lps ens hv hl he
    rcases vs with _ | ⟨v, vs⟩
    · simp at hv
    rcases lps with _ | ⟨lp, lps⟩
    · simp at hl
    rcases ens with _ | ⟨e, ens⟩
    · simp at he
    simp only [List.length_cons, Nat.succ_inj] at hv hl he
    have hfold :
        gaeLoop g t ec (r :: rs) ((v :: vs) ++ [R0]) (lp :: lps) (e :: ens) R0 =
          gaeIter g t ec (r :: rs) (v :: (vs ++ [R0])) (lp :: lps) (e :: ens)
            (gaeLoop g t ec rs (vs ++ [R0]) lps ens R0) 0 := by
      unfold gaeLoop
      rw [List.length_cons, List.range_succ_eq_map, List.reverse_cons, List.foldl_append,
        List.foldl_cons, List.foldl_nil, ← List.map_reverse, List.foldl_map]
      simp only [Nat.succ_eq_add_one, gaeIter_shift]
      rfl
    rw [hfold, ih vs lps ens hv hl he]
    show gaeIter g t ec (r :: rs) (v :: (vs ++ [R0])) (lp :: lps) (e :: ens)
        (gaeSpec g t ec rs (vs ++ [R0]) lps ens) 0 =
      gaeSpec g t ec (r :: rs) (v :: (vs ++ [R0])) (lp :: lps) (e :: ens)
    simp [gaeIter, gaeSpec]

/-- Witness for C1 at a concrete two-step rollout. -/
theorem c1_witness :
    ([(4:ℚ), 7]).length = ([(1:ℚ), 2]).length ∧
    ([(1:ℚ)/2, 1/4]).length = ([(1:ℚ), 2]).length ∧
    ([(1:ℚ), 3]).length = ([(1:ℚ), 2]).length ∧
    gaeLoop (1/2) (1/3) (1/5) [1, 2] ([4, 7] ++ [3]) [1/2, 1/4] [1, 3] 3 =
      gaeSpec (1/2) (1/3) (1/5) [1, 2] ([4, 7] ++ [3]) [1/2, 1/4] [1, 3] :=
  ⟨rfl, rfl, rfl,
    c1_gae_loop_refines_spec (1/2) (1/3) (1/5) 3 [1, 2] [4, 7] [1/2, 1/4] [1, 3] rfl rfl rfl⟩

/-- A successful checkpoint block leaves the state unchanged or appends
exactly one write event. -/
theorem checkpointBlock_shape {mu omega : Type} {cfg : Config mu omega}
    {s t : TrainState mu omega} (h : checkpointBlock cfg s = some t) :
    t = s ∨ t = { s with checkpoints := s.checkpoints ++ [ckptEventOf s] } := by
  unfold checkpointBlock at h
  cases hc : checkpointCond cfg.rank s.totalLength cfg.checkpointFreq cfg.numProcesses with
  | none => rw [hc] at h; cases h
  | some b =>
    rw [hc] at h
    injection h with h
    cases b
    · left; simpa using h.symm
    · right; simpa using h.symm

/-- The checkpoint block never changes the shared counter. -/
theorem checkpointBlock_counter {mu omega : Type} {cfg : Config mu omega}
    {s t : TrainState mu omega} (h : checkpointBlock cfg s = some t) :
    t.counter = s.counter := by
  rcases checkpointBlock_shape h with h' | h' <;> subst h' <;> rfl

/-- The checkpoint block changes no field other than the checkpoint
history. -/
theorem checkpointBlock_keeps {mu omega : Type} {cfg : Config mu omega}
    {s t : TrainState mu omega} (h : checkpointBlock cfg s = some t) :
    t.totalLength = s.totalLength ∧ t.episodeLength = s.episodeLength ∧
      t.values = s.values ∧ t.logProbs = s.logProbs ∧ t.rewards = s.rewards ∧
      t.entropies = s.entropies ∧ t.done = s.done ∧
      t.allRewardsInEpisode = s.allRewardsInEpisode ∧
      t.episodeTotalRewardsList = s.episodeTotalRewardsList ∧
      t.bestAvgEpisodeReturn = s.bestAvgEpisodeReturn ∧
      t.sharedGrads = s.sharedGrads ∧ t.optSteps = s.optSteps ∧
      t.numBackprops = s.numBackprops := by
  rcases checkpointBlock_shape h with h' | h' <;> subst h' <;>
    exact ⟨rfl, rfl, rfl, rfl, rfl, rfl, rfl, rfl, rfl, rfl, rfl, rfl, rfl⟩

/-- The episode-end block preserves the shared counter. -/
theorem doneBlock_counter {mu omega : Type} (s : TrainState mu omega) :
    (doneBlock s).counter = s.counter := rfl

/-- The interaction step increments the shared counter by one. -/
theorem stepBody_counter {mu omega : Type} (cfg : Config mu omega) (inp : StepInput)
    (s : TrainState mu omega) : (stepBody cfg inp s).counter = s.counter + 1 := by
  unfold stepBody
  dsimp only
  split <;> rfl

/-- The interaction step increments `total_length` by one. -/
theorem stepBody_totalLength {mu omega : Type} (cfg : Config mu omega) (inp : StepInput)
    (s : TrainState mu omega) : (stepBody cfg inp s).totalLength = s.totalLength + 1 := by
  unfold stepBody
  dsimp only
  split <;> rfl

/-- The done flag after an interaction step is the environment's flag or the
episode length cap test, with the episode length already incremented. -/
theorem stepBody_done {mu omega : Type} (cfg : Config mu omega) (inp : StepInput)
    (s : TrainState mu omega) :
    (stepBody cfg inp s).done =
      (inp.doneEnv || decide (cfg.maxEpisodeLength ≤ s.episodeLength + 1)) := rfl

/-- The interaction step appends exactly one value estimate. -/
theorem stepBody_values {mu omega : Type} (cfg : Config mu omega) (inp : StepInput)
    (s : TrainState mu omega) : (stepBody cfg inp s).values = s.values ++ [inp.value] := by
  unfold stepBody
  dsimp only
  split <;> rfl

/-- The interaction step appends exactly one log-probability. -/
theorem stepBody_logProbs {mu omega : Type} (cfg : Config mu omega) (inp : StepInput)
    (s : TrainState mu omega) : (stepBody cfg inp s).logProbs = s.logProbs ++ [inp.logProb] := by
  unfold stepBody
  dsimp only
  split <;> rfl

/-- The interaction step appends exactly one reward. -/
theorem stepBody_rewards {mu omega : Type} (cfg : Config mu omega) (inp : StepInput)
    (s : TrainState mu omega) : (stepBody cfg inp s).rewards = s.rewards ++ [inp.reward] := by
  unfold stepBody
  dsimp only
  split <;> rfl

/-- The interaction step appends exactly one entropy. -/
theorem stepBody_entropies {mu omega : Type} (cfg : Config mu omega) (inp : StepInput)
    (s : TrainState mu omega) : (stepBody cfg inp s).entropies = s.entropies ++ [inp.entropy] := by
  unfold stepBody
  dsimp only
  split <;> rfl

/-- The interaction step writes no checkpoint. -/
theorem stepBody_checkpoints {mu omega : Type} (cfg : Config mu omega) (inp : StepInput)
    (s : TrainState mu omega) : (stepBody cfg inp s).checkpoints = s.checkpoints := by
  unfold stepBody
  dsimp only
  split <;> rfl

/-- The interaction step never touches `best_avg_episode_return`. -/
theorem stepBody_best {mu omega : Type} (cfg : Config mu omega) (inp : StepInput)
    (s : TrainState mu omega) :
    (stepBody cfg inp s).bestAvgEpisodeReturn = s.bestAvgEpisodeReturn := by
  unfold stepBody
  dsimp only
  split <;> rfl

/-- The interaction step does not touch the shared gradient buffers. -/
theorem stepBody_sharedGrads {mu omega : Type} (cfg : Config mu omega) (inp : StepInput)
    (s : TrainState mu omega) : (stepBody cfg inp s).sharedGrads = s.sharedGrads := by
  unfold stepBody
  dsimp only
  split <;> rfl

/-- The interaction step applies no optimizer step. -/
theorem stepBody_optSteps {mu omega : Type} (cfg : Config mu omega) (inp : StepInput)
    (s : TrainState mu omega) : (stepBody cfg inp s).optSteps = s.optSteps := by
  unfold stepBody
  dsimp only
  split <;> rfl

/-- The interaction step performs no backprop. -/
theorem stepBody_numBackprops {mu omega : Type} (cfg : Config mu omega) (inp : StepInput)
    (s : TrainState mu omega) : (stepBody cfg inp s).numBackprops = s.numBackprops := by
  unfold stepBody
  dsimp only
  split <;> rfl

/-- When an interaction step ends the episode, the recorded episode total is
the sum of the per-episode accumulator before this step's reward is
appended, and the accumulator afterwards holds exactly this step's
reward. -/
theorem stepBody_done_logging {mu omega : Type} (cfg : Config mu omega) (inp : StepInput)
    (s : TrainState mu omega)
    (h : (inp.doneEnv || decide (cfg.maxEpisodeLength ≤ s.episodeLength + 1)) = true) :
    (stepBody cfg inp s).episodeTotalRewardsList =
        s.episodeTotalRewardsList ++ [s.allRewardsInEpisode.sum] ∧
      (stepBody cfg inp s).allRewardsInEpisode = [inp.reward] := by
  refine ⟨?_, ?_⟩ <;>
    (unfold stepBody doneBlock; dsimp only; rw [h]; simp)

/-- Decomposition of a successful rollout-loop iteration into a successful
checkpoint block followed by the interaction step. -/
theorem innerStep_eq_some {mu omega : Type} {cfg : Config mu omega} {inp : StepInput}
    {s s' : TrainState mu omega} :
    innerStep cfg inp s = some s' ↔
      ∃ t, checkpointBlock cfg s = some t ∧ stepBody cfg inp t = s' := by
  simp [innerStep, Option.map_eq_some']

/-- A successful rollout-loop iteration increments the shared counter by
exactly one. -/
theorem innerStep_counter {mu omega : Type} {cfg : Config mu omega} {inp : StepInput}
    {s s' : TrainState mu omega} (h : innerStep cfg inp s = some s') :
    s'.counter = s.counter + 1 := by
  rcases innerStep_eq_some.mp h with ⟨t, hc, hb⟩
  rw [← hb, stepBody_counter, checkpointBlock_counter hc]

/-- A rollout-loop iteration leaves the shared gradients, the optimizer
step count and the backprop count unchanged. -/
theorem innerStep_keeps {mu omega : Type} {cfg : Config mu omega} {inp : StepInput}
    {s s' : TrainState mu omega} (h : innerStep cfg inp s = some s') :
    s'.sharedGrads = s.sharedGrads ∧ s'.optSteps = s.optSteps ∧
      s'.numBackprops = s.numBackprops := by
  rcases innerStep_eq_some.mp h with ⟨t, hc, hb⟩
  have hk := checkpointBlock_keeps hc
  refine ⟨?_, ?_, ?_⟩ <;> rw [← hb]
  · rw [stepBody_sharedGrads, hk.2.2.2.2.2.2.2.2.2.2.1]
  · rw [stepBody_optSteps, hk.2.2.2.2.2.2.2.2.2.2.2.1]
  · rw [stepBody_numBackprops, hk.2.2.2.2.2.2.2.2.2.2.2.2]

/-- A rollout-loop iteration grows every rollout buffer by exactly one
element. -/
theorem innerStep_lengths {mu omega : Type} {cfg : Config mu omega} {inp : StepInput}
    {s s' : TrainState mu omega} (h : innerStep cfg inp s = some s') :
    s'.values.length = s.values.length + 1 ∧
      s'.logProbs.length = s.logProbs.length + 1 ∧
      s'.rewards.length = s.rewards.length + 1 ∧
      s'.entropies.length = s.entropies.length + 1 := by
  rcases innerStep_eq_some.mp h with ⟨t, hc, hb⟩
  have hk := checkpointBlock_keeps hc
  refine ⟨?_, ?_, ?_, ?_⟩ <;> rw [← hb]
  · rw [stepBody_values, List.length_append, hk.2.2.1]; rfl
  · rw [stepBody_logProbs, List.length_append, hk.2.2.2.1]; rfl
  · rw [stepBody_rewards, List.length_append, hk.2.2.2.2.1]; rfl
  · rw [stepBody_entropies, List.length_append, hk.2.2.2.2.2.1]; rfl

/-- The shared counter never decreases across a rollout. -/
theorem rolloutGo_counter_le {mu omega : Type} (cfg : Config mu omega) (script : ℕ → StepInput) :
    ∀ (n : ℕ) (s s' : TrainState mu omega),
      rolloutGo cfg script n s = some s' → s.counter ≤ s'.counter := by
  intro n
  induction n with
  | zero =>
    intro s s' h
    injection h with h
    exact Nat.le_of_eq (congrArg TrainState.counter h)
  | succ n ih =>
    intro s s' h
    unfold rolloutGo at h
    cases hi : innerStep cfg (script s.totalLength) s with
    | none => rw [hi] at h; cases h
    | some t =>
      rw [hi] at h
      dsimp only at h
      have ht : t.counter = s.counter + 1 := innerStep_counter hi
      by_cases hd : t.done = true
      · rw [if_pos hd] at h
        injection h with h
        subst h
        omega
      · rw [if_neg hd] at h
        have := ih t s' h
        omega

/-- A successful rollout of fuel `n` performs some `k ≤ n` interaction
steps: each buffer grows by exactly `k`, stopping short of `n` only with
the done flag set, and the shared-update bookkeeping is untouched. -/
theorem rolloutGo_run {mu omega : Type} (cfg : Config mu omega) (script : ℕ → StepInput) :
    ∀ (n : ℕ) (s s' : TrainState mu omega),
      rolloutGo cfg script n s = some s' →
      ∃ k, k ≤ n ∧
        s'.values.length = s.values.length + k ∧
        s'.logProbs.length = s.logProbs.length + k ∧
        s'.rewards.length = s.rewards.length + k ∧
        s'.entropies.length = s.entropies.length + k ∧
        (k < n → s'.done = true) ∧
        s'.sharedGrads = s.sharedGrads ∧ s'.optSteps = s.optSteps ∧
        s'.numBackprops = s.numBackprops := by
  intro n
  induction n with
  | zero =>
    intro s s' h
    injection h with h
    subst h
    exact ⟨0, le_rfl, rfl, rfl, rfl, rfl, fun hk => absurd hk (by omega), rfl, rfl, rfl⟩
  | succ n ih =>
    intro s s' h
    unfold rolloutGo at h
    cases hi : innerStep cfg (script s.totalLength) s with
    | none => rw [hi] at h; cases h
    | some t =>
      rw [hi] at h
      dsimp only at h
      have hlen := innerStep_lengths hi
      have hkeep := innerStep_keeps hi
      by_cases hd : t.done = true
      · rw [if_pos hd] at h
        injection h with h
        subst h
        exact ⟨1, by omega, by omega, by omega, by omega, by omega,
          fun _ => hd, hkeep.1, hkeep.2.1, hkeep.2.2⟩
      · rw [if_neg hd] at h
        rcases ih t s' h with ⟨k, hkn, h1, h2, h3, h4, hdone, hg, ho, hb⟩
        refine ⟨k + 1, by omega, ?_, ?_, ?_, ?_, ?_, ?_, ?_, ?_⟩
        · omega
        · omega
        · omega
        · omega
        · intro hlt
          exact hdone (by omega)
        · rw [hg, hkeep.1]
        · rw [ho, hkeep.2.1]
        · rw [hb, hkeep.2.2]

/-- The post-rollout tail of the loop body preserves the done flag. -/
theorem outerTail_done {mu omega : Type} (cfg : Config mu omega) (script : ℕ → StepInput)
    (r : TrainState mu omega) : (outerTail cfg script r).done = r.done := rfl

/-- The post-rollout tail performs no environment interaction. -/
theorem outerTail_totalLength {mu omega : Type} (cfg : Config mu omega) (script : ℕ → StepInput)
    (r : TrainState mu omega) : (outerTail cfg script r).totalLength = r.totalLength := rfl

/-- The post-rollout tail leaves the reward buffer unchanged. -/
theorem outerTail_rewards {mu omega : Type} (cfg : Config mu omega) (script : ℕ → StepInput)
    (r : TrainState mu omega) : (outerTail cfg script r).rewards = r.rewards := rfl

/-- The post-rollout tail leaves the log-probability buffer unchanged. -/
theorem outerTail_logProbs {mu omega : Type} (cfg : Config mu omega) (script : ℕ → StepInput)
    (r : TrainState mu omega) : (outerTail cfg script r).logProbs = r.logProbs := rfl

/-- The post-rollout tail leaves the entropy buffer unchanged. -/
theorem outerTail_entropies {mu omega : Type} (cfg : Config mu omega) (script : ℕ → StepInput)
    (r : TrainState mu omega) : (outerTail cfg script r).entropies = r.entropies := rfl

/-- The post-rollout tail appends exactly the bootstrap value to the value
buffer (train.py line 209). -/
theorem outerTail_values {mu omega : Type} (cfg : Config mu omega) (script : ℕ → StepInput)
    (r : TrainState mu omega) :
    (outerTail cfg script r).values =
      r.values ++ [if !r.done then (script r.totalLength).value else 0] := rfl

/-- The bootstrap value used by the loss loop: the critic's estimate of the
next state if the episode did not end, else 0 (train.py lines 196-206). -/
theorem outerTail_lastBootstrap {mu omega : Type} (cfg : Config mu omega) (script : ℕ → StepInput)
    (r : TrainState mu omega) :
    (outerTail cfg script r).lastBootstrap =
      (if !r.done then (script r.totalLength).value else 0) := rfl

/-- The post-rollout tail applies exactly one optimizer step. -/
theorem outerTail_optSteps {mu omega : Type} (cfg : Config mu omega) (script : ℕ → StepInput)
    (r : TrainState mu omega) : (outerTail cfg script r).optSteps = r.optSteps + 1 := rfl

/-- The post-rollout tail pushes gradients through `ensure_shared_grads`
exactly once, on the freshly zeroed shared buffers. -/
theorem outerTail_sharedGrads {mu omega : Type} (cfg : Config mu omega) (script : ℕ → StepInput)
    (r : TrainState mu omega) :
    (outerTail cfg script r).sharedGrads =
      ensure_shared_grads (cfg.gradOracle r.numBackprops) (zeroGrad r.sharedGrads) := rfl

/-- The post-rollout tail writes no checkpoint. -/
theorem outerTail_checkpoints {mu omega : Type} (cfg : Config mu omega) (script : ℕ → StepInput)
    (r : TrainState mu omega) : (outerTail cfg script r).checkpoints = r.checkpoints := rfl

/-- The post-rollout tail never touches `best_avg_episode_return`. -/
theorem outerTail_best {mu omega : Type} (cfg : Config mu omega) (script : ℕ → StepInput)
    (r : TrainState mu omega) :
    (outerTail cfg script r).bestAvgEpisodeReturn = r.bestAvgEpisodeReturn := rfl

/-- Decomposition of a successful outer-loop iteration into a successful
rollout from freshly reset buffers followed by the loss/update tail. -/
theorem outerIter_eq_some {mu omega : Type} {cfg : Config mu omega} {script : ℕ → StepInput}
    {s s' : TrainState mu omega} :
    outerIter cfg script s = some s' ↔
      ∃ r, rolloutGo cfg script cfg.numSteps (syncAndReset s) = some r ∧
        outerTail cfg script r = s' := by
  simp [outerIter, Option.map_eq_some']

/-- C2: at the end of every rollout, the terminal bootstrap value seeding
the backward accumulation is exactly 0 when done is true, and otherwise the
critic's (detached) value estimate of the state following the last
collected step; and done is true exactly when the environment reported done
or the episode length reached `max_episode_length`. -/
theorem c2_bootstrap_value (mu omega : Type) (cfg : Config mu omega) (script : ℕ → StepInput)
    (s s' : TrainState mu omega) (h : outerIter cfg script s = some s') :
    (s'.done = true → s'.lastBootstrap = 0) ∧
      (s'.done = false → s'.lastBootstrap = (script s'.totalLength).value) ∧
      (∀ (inp : StepInput) (t : TrainState mu omega),
        (stepBody cfg inp t).done =
          (inp.doneEnv || decide (cfg.maxEpisodeLength ≤ t.episodeLength + 1))) := by
  rcases outerIter_eq_some.mp h with ⟨r, _, ht⟩
  subst ht
  refine ⟨?_, ?_, fun inp t => stepBody_done cfg inp t⟩
  · intro hd
    rw [outerTail_done] at hd
    rw [outerTail_lastBootstrap, hd]
    rfl
  · intro hd
    rw [outerTail_done] at hd
    rw [outerTail_lastBootstrap, outerTail_totalLength, hd]
    rfl

unseal Rat.add Rat.mul Rat.inv Rat.sub in
/-- Witness for C2: one outer iteration of the bland two-step run; the
episode does not end, so the bootstrap is the critic value at the next
state. -/
theorem c2_witness :
    (resW.done = true → resW.lastBootstrap = 0) ∧
      (resW.done = false → resW.lastBootstrap = (scriptW resW.totalLength).value) ∧
      (∀ (inp : StepInput) (t : TrainState ℕ ℕ),
        (stepBody cfgW inp t).done =
          (inp.doneEnv || decide (cfgW.maxEpisodeLength ≤ t.episodeLength + 1))) :=
  c2_bootstrap_value ℕ ℕ cfgW scriptW stW resW (by decide)

/-- The gradient-copy loop assigns every shared gradient from the
corresponding local gradient when no shared gradient is set yet. -/
theorem ensure_shared_grads_all_none {α : Type} :
    ∀ (lg sg : List (Option α)), lg.length = sg.length → (∀ x ∈ sg, x = none) →
      ensure_shared_grads lg sg = lg := by
  intro lg
  induction lg with
  | nil =>
    intro sg hl _
    have hsg : sg = [] := List.length_eq_zero.mp hl.symm
    subst hsg
    rfl
  | cons g gs ih =>
    intro sg hl hn
    rcases sg with _ | ⟨x, ss⟩
    · simp at hl
    have hx : x = none := hn x (List.mem_cons_self x ss)
    subst hx
    simp only [List.length_cons, Nat.succ_inj] at hl
    show g :: ensure_shared_grads gs ss = g :: gs
    rw [ih ss hl (fun y hy => hn y (List.mem_cons_of_mem _ hy))]

/-- The gradient-copy loop returns without writing anything as soon as it
meets a shared gradient that is already set. -/
theorem ensure_shared_grads_already_set {α : Type} (lg : List (Option α)) (v : α)
    (sg : List (Option α)) :
    ensure_shared_grads lg (some v :: sg) = some v :: sg := by
  cases lg <;> rfl

/-- C3: on every update, `ensure_shared_grads` assigns each shared
parameter's gradient from the corresponding local parameter's gradient,
returning without writing when a shared gradient is already set
(first-writer-wins), and every outer-loop iteration pushes gradients
through it exactly once and applies exactly one optimizer step to the
shared model. -/
theorem c3_shared_grads_discipline :
    (∀ (α : Type) (lg sg : List (Option α)),
      lg.length = sg.length → (∀ x ∈ sg, x = none) → ensure_shared_grads lg sg = lg) ∧
    (∀ (α : Type) (lg : List (Option α)) (v : α) (sg : List (Option α)),
      ensure_shared_grads lg (some v :: sg) = some v :: sg) ∧
    (∀ (mu omega : Type) (cfg : Config mu omega) (script : ℕ → StepInput)
        (s s' : TrainState mu omega),
      outerIter cfg script s = some s' →
        s'.optSteps = s.optSteps + 1 ∧
          s'.sharedGrads =
            ensure_shared_grads (cfg.gradOracle s.numBackprops) (zeroGrad s.sharedGrads)) := by
  refine ⟨fun α => ensure_shared_grads_all_none,
    fun α => ensure_shared_grads_already_set, ?_⟩
  intro mu omega cfg script s s' h
  rcases outerIter_eq_some.mp h with ⟨r, hr, ht⟩
  subst ht
  rcases rolloutGo_run cfg script cfg.numSteps (syncAndReset s) r hr with
    ⟨k, _, _, _, _, _, _, hg, ho, hb⟩
  have hg0 : r.sharedGrads = s.sharedGrads := by simpa [syncAndReset] using hg
  have ho0 : r.optSteps = s.optSteps := by simpa [syncAndReset] using ho
  have hb0 : r.numBackprops = s.numBackprops := by simpa [syncAndReset] using hb
  constructor
  · rw [outerTail_optSteps, ho0]
  · rw [outerTail_sharedGrads, hg0, hb0]

/-- Witness for C3: copying two local gradients into empty shared
buffers. -/
theorem c3_witness :
    ensure_shared_grads [some (1:ℚ), none] [none, none] = [some 1, none] :=
  c3_shared_grads_discipline.1 ℚ [some 1, none] [none, none] rfl (by decide)

/-- C4: every rollout-loop iteration increments the shared counter by
exactly one, immediately after the environment interaction, and
consequently the counter never decreases over any rollout. -/
theorem c4_counter_increment :
    (∀ (mu omega : Type) (cfg : Config mu omega) (inp : StepInput)
        (s s' : TrainState mu omega),
      innerStep cfg inp s = some s' → s'.counter = s.counter + 1) ∧
    (∀ (mu omega : Type) (cfg : Config mu omega) (script : ℕ → StepInput) (n : ℕ)
        (s s' : TrainState mu omega),
      rolloutGo cfg script n s = some s' → s.counter ≤ s'.counter) :=
  ⟨fun _ _ _ _ _ _ h => innerStep_counter h,
   fun _ _ cfg script n s s' h => rolloutGo_counter_le cfg script n s s' h⟩

unseal Rat.add Rat.mul Rat.inv Rat.sub in
/-- Witness for C4: one rollout step of the bland run takes the counter
from 5 to 6. -/
theorem c4_witness : stW1.counter = stW.counter + 1 :=
  c4_counter_increment.1 ℕ ℕ cfgW (scriptW 0) stW stW1 (by decide)

/-- C5: a checkpoint is written exactly when `rank = 0`,
`total_length > 0` and `total_length` is divisible by
`checkpoint_freq // num_processes` (otherwise the state is untouched), and
the record written contains exactly `total_length`, `episode_number`,
`counter`, the model's state and the optimizer's state. -/
theorem c5_checkpoint_writes (mu omega : Type) (cfg : Config mu omega)
    (s t : TrainState mu omega) (h : checkpointBlock cfg s = some t) :
    (¬(cfg.rank = 0 ∧ 0 < s.totalLength ∧
        s.totalLength % (cfg.checkpointFreq / cfg.numProcesses) = 0) → t = s) ∧
    ((cfg.rank = 0 ∧ 0 < s.totalLength ∧
        s.totalLength % (cfg.checkpointFreq / cfg.numProcesses) = 0) →
      t.checkpoints = s.checkpoints ++ [ckptEventOf s] ∧
        ckptEventOf s =
          { record :=
              { totalLength := s.totalLength
                episodeNumber := s.episodeNumber
                counter := s.counter
                stateDict := s.modelState
                optimizerState := s.optState }
            isBest := floatGt s.avgEpisodeReturn s.bestAvgEpisodeReturn
            avgAtWrite := s.avgEpisodeReturn }) := by
  by_cases hr : cfg.rank = 0
  · by_cases htl : 0 < s.totalLength
    · by_cases hdz : cfg.checkpointFreq / cfg.numProcesses = 0
      · exfalso
        simp only [checkpointBlock, checkpointCond, hr, htl, hdz, if_true, if_pos] at h
        exact Option.noConfusion h
      · by_cases hm : s.totalLength % (cfg.checkpointFreq / cfg.numProcesses) = 0
        · simp only [checkpointBlock, checkpointCond, hr, htl, hdz, hm, if_true, if_pos,
            if_neg, decide_True, if_false, Option.some.injEq] at h
          refine ⟨fun hn => absurd ⟨hr, htl, hm⟩ hn, fun _ => ?_⟩
          rw [← h]
          exact ⟨rfl, rfl⟩
        · simp only [checkpointBlock, checkpointCond, hr, htl, hdz, hm, if_true, if_pos,
            if_neg, decide_False, if_false, Option.some.injEq] at h
          refine ⟨fun _ => h.symm, fun hc => absurd hc.2.2 hm⟩
    · simp only [checkpointBlock, checkpointCond, hr, htl, if_true, if_false,
        Option.some.injEq] at h
      refine ⟨fun _ => h.symm, fun hc => absurd hc.2.1 htl⟩
  · simp only [checkpointBlock, checkpointCond, hr, if_false, Option.some.injEq] at h
    refine ⟨fun _ => h.symm, fun hc => absurd hc.1 hr⟩

unseal Rat.add Rat.mul Rat.inv Rat.sub in
/-- Witness for C5: the checkpoint block fires on the state after twelve
iterations of the rank-0 run (`total_length = 12`, divisor 12) and appends
the five-field record. -/
theorem c5_witness :
    ck5.checkpoints = st12.checkpoints ++ [ckptEventOf st12] ∧
      ckptEventOf st12 =
        { record :=
            { totalLength := st12.totalLength
              episodeNumber := st12.episodeNumber
              counter := st12.counter
              stateDict := st12.modelState
              optimizerState := st12.optState }
          isBest := floatGt st12.avgEpisodeReturn st12.bestAvgEpisodeReturn
          avgAtWrite := st12.avgEpisodeReturn } :=
  (c5_checkpoint_writes ℕ ℕ cfg6 st12 ck5 (by decide)).2 (by refine ⟨rfl, ?_, ?_⟩ <;> decide)

/-- Comparing a Python float against `-inf` with `>` holds exactly for
finite values. -/
theorem floatGt_none (a : Option ℚ) : floatGt a none = a.isSome := by
  cases a <;> rfl

/-- The checkpoint block keeps `best_avg_episode_return` at `-inf` and
flags a write as best exactly when a rolling average exists, provided that
held before. -/
theorem bestInv_checkpointBlock {mu omega : Type} {cfg : Config mu omega}
    {s t : TrainState mu omega} (h : checkpointBlock cfg s = some t)
    (hb : s.bestAvgEpisodeReturn = none)
    (he : ∀ e ∈ s.checkpoints, e.isBest = e.avgAtWrite.isSome) :
    t.bestAvgEpisodeReturn = none ∧
      ∀ e ∈ t.checkpoints, e.isBest = e.avgAtWrite.isSome := by
  rcases checkpointBlock_shape h with h' | h' <;> subst h'
  · exact ⟨hb, he⟩
  · refine ⟨hb, ?_⟩
    intro e hme
    rcases List.mem_append.mp hme with hold | hnew
    · exact he e hold
    · have : e = ckptEventOf s := List.mem_singleton.mp hnew
      subst this
      show floatGt s.avgEpisodeReturn s.bestAvgEpisodeReturn = s.avgEpisodeReturn.isSome
      rw [hb, floatGt_none]

/-- The best-flag invariant is preserved by one rollout-loop iteration. -/
theorem bestInv_innerStep {mu omega : Type} {cfg : Config mu omega} {inp : StepInput}
    {s s' : TrainState mu omega} (h : innerStep cfg inp s = some s')
    (hb : s.bestAvgEpisodeReturn = none)
    (he : ∀ e ∈ s.checkpoints, e.isBest = e.avgAtWrite.isSome) :
    s'.bestAvgEpisodeReturn = none ∧
      ∀ e ∈ s'.checkpoints, e.isBest = e.avgAtWrite.isSome := by
  rcases innerStep_eq_some.mp h with ⟨t, hc, hbody⟩
  rcases bestInv_checkpointBlock hc hb he with ⟨hb', he'⟩
  subst hbody
  rw [stepBody_best, stepBody_checkpoints]
  exact ⟨hb', he'⟩

/-- The best-flag invariant is preserved by a whole rollout. -/
theorem bestInv_rolloutGo {mu omega : Type} (cfg : Config mu omega) (script : ℕ → StepInput) :
    ∀ (n : ℕ) (s s' : TrainState mu omega), rolloutGo cfg script n s = some s' →
      s.bestAvgEpisodeReturn = none →
      (∀ e ∈ s.checkpoints, e.isBest = e.avgAtWrite.isSome) →
      s'.bestAvgEpisodeReturn = none ∧
        ∀ e ∈ s'.checkpoints, e.isBest = e.avgAtWrite.isSome := by
  intro n
  induction n with
  | zero =>
    intro s s' h hb he
    injection h with h
    subst h
    exact ⟨hb, he⟩
  | succ n ih =>
    intro s s' h hb he
    unfold rolloutGo at h
    cases hi : innerStep cfg (script s.totalLength) s with
    | none => rw [hi] at h; cases h
    | some t =>
      rw [hi] at h
      dsimp only at h
      rcases bestInv_innerStep hi hb he with ⟨hb', he'⟩
      by_cases hd : t.done = true
      · rw [if_pos hd] at h
        injection h with h
        subst h
        exact ⟨hb', he'⟩
      · rw [if_neg hd] at h
        exact ih t s' h hb' he'

/-- The best-flag invariant is preserved by one outer-loop iteration. -/
theorem bestInv_outerIter {mu omega : Type} {cfg : Config mu omega} {script : ℕ → StepInput}
    {s s' : TrainState mu omega} (h : outerIter cfg script s = some s')
    (hb : s.bestAvgEpisodeReturn = none)
    (he : ∀ e ∈ s.checkpoints, e.isBest = e.avgAtWrite.isSome) :
    s'.bestAvgEpisodeReturn = none ∧
      ∀ e ∈ s'.checkpoints, e.isBest = e.avgAtWrite.isSome := by
  rcases outerIter_eq_some.mp h with ⟨r, hr, ht⟩
  subst ht
  have hb0 : (syncAndReset s).bestAvgEpisodeReturn = none := hb
  have he0 : ∀ e ∈ (syncAndReset s).checkpoints, e.isBest = e.avgAtWrite.isSome := he
  rcases bestInv_rolloutGo cfg script cfg.numSteps (syncAndReset s) r hr hb0 he0 with ⟨hb', he'⟩
  rw [outerTail_best, outerTail_checkpoints]
  exact ⟨hb', he'⟩

/-- The best-flag invariant is preserved by any number of outer-loop
iterations. -/
theorem bestInv_outerLoop {mu omega : Type} (cfg : Config mu omega) (script : ℕ → StepInput) :
    ∀ (n : ℕ) (s s' : TrainState mu omega), outerLoop cfg script n s = some s' →
      s.bestAvgEpisodeReturn = none →
      (∀ e ∈ s.checkpoints, e.isBest = e.avgAtWrite.isSome) →
      s'.bestAvgEpisodeReturn = none ∧
        ∀ e ∈ s'.checkpoints, e.isBest = e.avgAtWrite.isSome := by
  intro n
  induction n with
  | zero =>
    intro s s' h hb he
    injection h with h
    subst h
    exact ⟨hb, he⟩
  | succ n ih =>
    intro s s' h hb he
    unfold outerLoop at h
    cases hi : outerIter cfg script s with
    | none => rw [hi] at h; cases h
    | some t =>
      rw [hi] at h
      dsimp only at h
      rcases bestInv_outerIter hi hb he with ⟨hb', he'⟩
      exact ih t s' h hb' he'

unseal Rat.add Rat.mul Rat.inv Rat.sub in
/-- C6 fails on the code: in the `cfg6` run, the single checkpoint (written
at the top of iteration thirteen, reading the state reached after twelve
iterations) is flagged best with a rolling average of 0, although the best
rolling average seen so far is 5, which 0 does not strictly exceed. -/
theorem c6_counterexample :
    ((outerLoop cfg6 script6 13 st6).map (fun s =>
        s.checkpoints.map (fun e => (e.isBest, e.avgAtWrite))) =
      some [(true, some 0)]) ∧
    ((outerLoop cfg6 script6 12 st6).map (fun s =>
        (s.checkpoints.length, s.avgEpisodeReturn, bestSoFarSpec s.avgEpisodeReturns,
          floatGt s.avgEpisodeReturn (bestSoFarSpec s.avgEpisodeReturns))) =
      some (0, some 0, some 5, false)) := by
  constructor <;> decide

/-- C6 amended: a checkpoint is flagged best iff, at the time it is
written, `avg_episode_return` exceeds `best_avg_episode_return`; but
`best_avg_episode_return` is never updated from its initial `-inf`, so the
flag is set iff a rolling average has been computed at all by write time
(i.e. more than 10 episode totals were recorded), not iff the rolling
average exceeds the best seen so far. -/
theorem c6_best_flag_amended (mu omega : Type) (cfg : Config mu omega)
    (script : ℕ → StepInput) (n : ℕ) (m0 sh0 : mu) (o0 : omega) (c0 : ℕ)
    (s' : TrainState mu omega)
    (h : outerLoop cfg script n (initState cfg m0 sh0 o0 c0) = some s') :
    s'.bestAvgEpisodeReturn = none ∧
      ∀ e ∈ s'.checkpoints, e.isBest = e.avgAtWrite.isSome :=
  bestInv_outerLoop cfg script n (initState cfg m0 sh0 o0 c0) s' h rfl
    (fun e he => absurd he (List.not_mem_nil e))

unseal Rat.add Rat.mul Rat.inv Rat.sub in
/-- Witness for the amended C6 on the thirteen-iteration rank-0 run. -/
theorem c6_witness :
    res6.bestAvgEpisodeReturn = none ∧
      ∀ e ∈ res6.checkpoints, e.isBest = e.avgAtWrite.isSome :=
  c6_best_flag_amended ℕ ℕ cfg6 script6 13 0 0 0 0 res6 (by decide)

/-- C7: every rollout collects at most `num_steps` tuples, stops short of
`num_steps` only when the done flag was raised, and starts from freshly
emptied buffers, so the state an update sees holds only its own rollout's
tuples (the bound holds whatever the buffers contained before the
iteration). -/
theorem c7_rollout_bounds (mu omega : Type) (cfg : Config mu omega) (script : ℕ → StepInput)
    (s s' : TrainState mu omega) (h : outerIter cfg script s = some s') :
    s'.rewards.length ≤ cfg.numSteps ∧
      (s'.rewards.length < cfg.numSteps → s'.done = true) := by
  rcases outerIter_eq_some.mp h with ⟨r, hr, ht⟩
  subst ht
  rcases rolloutGo_run cfg script cfg.numSteps (syncAndReset s) r hr with
    ⟨k, hkn, _, _, hrew, _, hdone, _, _, _⟩
  have hrew0 : r.rewards.length = k := by
    simpa [syncAndReset] using hrew
  constructor
  · rw [outerTail_rewards, hrew0]
    exact hkn
  · intro hlt
    rw [outerTail_rewards, hrew0] at hlt
    rw [outerTail_done]
    exact hdone hlt

unseal Rat.add Rat.mul Rat.inv Rat.sub in
/-- Witness for C7 on one outer iteration of the bland two-step run. -/
theorem c7_witness :
    resW.rewards.length ≤ cfgW.numSteps ∧
      (resW.rewards.length < cfgW.numSteps → resW.done = true) :=
  c7_rollout_bounds ℕ ℕ cfgW scriptW stW resW (by decide)

/-- C8: after the bootstrap value is appended, the value buffer has exactly
one more entry than the reward buffer, the log-probability and entropy
buffers match the reward buffer in length, and hence the loss loop's
accesses `values[i + 1]`, `log_probs[i]`, `entropies[i]` are in bounds for
every `i < len(rewards)`. -/
theorem c8_buffer_lengths (mu omega : Type) (cfg : Config mu omega) (script : ℕ → StepInput)
    (s s' : TrainState mu omega) (h : outerIter cfg script s = some s') :
    s'.values.length = s'.rewards.length + 1 ∧
      s'.logProbs.length = s'.rewards.length ∧
      s'.entropies.length = s'.rewards.length ∧
      (∀ i < s'.rewards.length,
        i + 1 < s'.values.length ∧ i < s'.logProbs.length ∧ i < s'.entropies.length) := by
  rcases outerIter_eq_some.mp h with ⟨r, hr, ht⟩
  subst ht
  rcases rolloutGo_run cfg script cfg.numSteps (syncAndReset s) r hr with
    ⟨k, _, hval, hlp, hrew, hent, _, _, _, _⟩
  have hval0 : r.values.length = k := by simpa [syncAndReset] using hval
  have hlp0 : r.logProbs.length = k := by simpa [syncAndReset] using hlp
  have hrew0 : r.rewards.length = k := by simpa [syncAndReset] using hrew
  have hent0 : r.entropies.length = k := by simpa [syncAndReset] using hent
  have h1 : (outerTail cfg script r).values.length = k + 1 := by
    rw [outerTail_values, List.length_append, hval0]
    rfl
  rw [outerTail_rewards, outerTail_logProbs, outerTail_entropies, h1, hrew0, hlp0, hent0]
  exact ⟨rfl, rfl, rfl, fun i hi => ⟨by omega, hi, hi⟩⟩

unseal Rat.add Rat.mul Rat.inv Rat.sub in
/-- Witness for C8 on one outer iteration of the bland two-step run. -/
theorem c8_witness :
    resW.values.length = resW.rewards.length + 1 ∧
      resW.logProbs.length = resW.rewards.length ∧
      resW.entropies.length = resW.rewards.length ∧
      (∀ i < resW.rewards.length,
        i + 1 < resW.values.length ∧ i < resW.logProbs.length ∧ i < resW.entropies.length) :=
  c8_buffer_lengths ℕ ℕ cfgW scriptW stW resW (by decide)

/-- C9: when `checkpoint_freq < num_processes`, the cadence divisor
`checkpoint_freq // num_processes` is 0 and any rollout step of the rank-0
worker with `total_length > 0` raises `ZeroDivisionError` (the step
returns `none`); conversely with `num_processes ≤ checkpoint_freq` (and a
positive process count) every rollout step completes, so
`checkpoint_freq ≥ num_processes` is a precondition for the training loop
not to fail. -/
theorem c9_div_zero_precondition :
    (∀ (mu omega : Type) (cfg : Config mu omega) (inp : StepInput) (s : TrainState mu omega),
      cfg.rank = 0 → 0 < s.totalLength → cfg.checkpointFreq < cfg.numProcesses →
        innerStep cfg inp s = none) ∧
    (∀ (mu omega : Type) (cfg : Config mu omega) (inp : StepInput) (s : TrainState mu omega),
      cfg.numProcesses ≤ cfg.checkpointFreq → 0 < cfg.numProcesses →
        ∃ t, innerStep cfg inp s = some t) := by
  constructor
  · intro mu omega cfg inp s hr htl hlt
    have hdz : cfg.checkpointFreq / cfg.numProcesses = 0 := Nat.div_eq_of_lt hlt
    simp only [innerStep, checkpointBlock, checkpointCond, hr, htl, hdz, if_true, if_pos,
      Option.map_eq_none']
  · intro mu omega cfg inp s hge hpos
    have hdz : cfg.checkpointFreq / cfg.numProcesses ≠ 0 :=
      Nat.pos_iff_ne_zero.mp (Nat.div_pos hge hpos)
    by_cases hr : cfg.rank = 0
    · by_cases htl : 0 < s.totalLength
      · refine ⟨stepBody cfg inp (if s.totalLength %
          (cfg.checkpointFreq / cfg.numProcesses) = 0 then
            { s with checkpoints := s.checkpoints ++ [ckptEventOf s] } else s), ?_⟩
        simp only [innerStep, checkpointBlock, checkpointCond, hr, htl, hdz, if_true, if_pos,
          if_neg, Option.map_eq_some']
        refine ⟨_, rfl, ?_⟩
        by_cases hm : s.totalLength % (cfg.checkpointFreq / cfg.numProcesses) = 0 <;>
          simp [hm]
      · exact ⟨stepBody cfg inp s, by
          simp only [innerStep, checkpointBlock, checkpointCond, hr, htl, if_true, if_false,
            Option.map_eq_some']
          exact ⟨s, rfl, rfl⟩⟩
    · exact ⟨stepBody cfg inp s, by
        simp only [innerStep, checkpointBlock, checkpointCond, hr, if_false,
          Option.map_eq_some']
        exact ⟨s, rfl, rfl⟩⟩

/-- Witness for C9: with `checkpoint_freq = 1 < 2 = num_processes` the
rank-0 worker's rollout step fails as soon as `total_length > 0`. -/
theorem c9_witness : innerStep cfg9 (scriptW 0) st9 = none :=
  c9_div_zero_precondition.1 ℕ ℕ cfg9 (scriptW 0) st9 rfl (by decide) (by decide)

/-- C10: when a rollout step ends the episode, the logged episode total is
the sum of `all_rewards_in_episode` before the final step's reward is
appended, and the accumulator afterwards holds exactly that final reward -
so each episode's logged total excludes its own last reward, which is
counted toward the following episode instead. -/
theorem c10_episode_logging_shift (mu omega : Type) (cfg : Config mu omega) (inp : StepInput)
    (s s' : TrainState mu omega) (h : innerStep cfg inp s = some s') (hd : s'.done = true) :
    s'.episodeTotalRewardsList = s.episodeTotalRewardsList ++ [s.allRewardsInEpisode.sum] ∧
      s'.allRewardsInEpisode = [inp.reward] := by
  rcases innerStep_eq_some.mp h with ⟨t, hc, hb⟩
  have hk := checkpointBlock_keeps hc
  subst hb
  rw [stepBody_done] at hd
  rw [hk.2.1] at hd
  rcases stepBody_done_logging cfg inp t (by rw [hk.2.1]; exact hd) with ⟨h1, h2⟩
  refine ⟨?_, h2⟩
  rw [h1, hk.2.2.2.2.2.2.2.2.1, hk.2.2.2.2.2.2.2.1]

unseal Rat.add Rat.mul Rat.inv Rat.sub in
/-- Witness for C10 on a step that ends the episode (cap 1). -/
theorem c10_witness :
    resD.episodeTotalRewardsList =
        stW.episodeTotalRewardsList ++ [stW.allRewardsInEpisode.sum] ∧
      resD.allRewardsInEpisode = [(scriptW 0).reward] :=
  c10_episode_logging_shift ℕ ℕ cfgD (scriptW 0) stW resD (by decide) (by decide)
